import Mathlib

/-!
Verification model of the telemetry orchestration core of the
service-web-back repository: the telemetry submission route
(src/routes/telemetry_postgres.py), the Cassandra time-series service
(src/services/cassandra_telemetry.py) and the Redis cache service
(src/services/redis_cache.py).

Python values, stores and control flow are shallowly embedded:
numeric measurement values are modelled as exact rationals, Redis
hashes and Cassandra tables as association lists, exceptions as
Except/Option, and wall-clock instants as integers (seconds).
-/

namespace IotFlow

/-- Values that can appear in a JSON measurement map: Python floats and
ints are collapsed into one exact-rational constructor (the code treats
both identically via isinstance(value, (int, float))), strings and
booleans are kept separate because the code branches on them. -/
inductive PyVal where
  | num  (q : ℚ)
  | str  (s : String)
  | bool (b : Bool)
deriving DecidableEq, Repr

/-- Test mirroring the Python check
isinstance(value, (int, float)) and not isinstance(value, bool). -/
def PyVal.isNumeric : PyVal → Bool
  | .num _ => true
  | _ => false

/-- Test mirroring isinstance(value, bool). -/
def PyVal.isBool : PyVal → Bool
  | .bool _ => true
  | _ => false

/-- Numeric value of a digit list read left to right. -/
def natFromDigits (l : List Char) : ℕ :=
  l.foldl (fun acc c => 10 * acc + (c.toNat - 48)) 0

/-- Model of Python int(s): an optional sign followed by a nonempty run
of digits (whitespace/underscore tolerance of CPython is not modelled;
it is irrelevant to the inputs the claims exercise).  Returns none where
int(s) raises ValueError. -/
def parseIntPy (s : String) : Option ℤ :=
  let cs := s.toList
  let signed : ℤ × List Char :=
    match cs with
    | '-' :: t => (-1, t)
    | '+' :: t => (1, t)
    | _ => (1, cs)
  if signed.2 ≠ [] ∧ signed.2.all Char.isDigit then
    some (signed.1 * (natFromDigits signed.2 : ℤ))
  else
    none

/-- Model of Python float(s) restricted to finite decimal literals:
optional sign, digits, optional fractional part (inf/nan/exponent forms
are not modelled; the claims only need that some strings parse and
others do not).  Returns none where float(s) raises ValueError. -/
def pyFloat (s : String) : Option ℚ :=
  let cs := s.toList
  let signed : Bool × List Char :=
    match cs with
    | '-' :: t => (true, t)
    | '+' :: t => (false, t)
    | _ => (false, cs)
  let intPart := signed.2.takeWhile Char.isDigit
  let rest := signed.2.dropWhile Char.isDigit
  let build : ℕ → ℕ → Option ℚ := fun num den =>
    if signed.1 then some (-(mkRat num den)) else some (mkRat num den)
  match rest with
  | [] =>
      if intPart = [] then none
      else build (natFromDigits intPart) 1
  | '.' :: frac =>
      if frac.all Char.isDigit ∧ (intPart ≠ [] ∨ frac ≠ []) then
        build (natFromDigits intPart * 10 ^ frac.length + natFromDigits frac)
          (10 ^ frac.length)
      else none
  | _ => none

/-- Coercion applied by RedisCacheService.get_latest_telemetry to each
stored hash field: float(v).  Numeric values round-trip exactly through
their string representation; strings go through float-parsing; booleans
never reach the hash (the redis-py encoder rejects them), the bool case
is dead and returns none. -/
def coerceFloat : PyVal → Option ℚ
  | .num q => some q
  | .str s => pyFloat s
  | .bool _ => none

/-- Numeric subset of a measurement map: the rows actually persisted by
CassandraTelemetryService.write_telemetry, which skips every value
failing isinstance(value, (int, float)) or satisfying
isinstance(value, bool). -/
def numericSubset (m : List (String × PyVal)) : List (String × ℚ) :=
  m.filterMap fun kv =>
    match kv.2 with
    | .num q => some (kv.1, q)
    | _ => none

/-- Single-key upsert on an association list: the effect of one Redis
HSET field write, one Redis ZADD member write, or one Cassandra INSERT
into a table whose primary key is (device, measurement). -/
def upsertA {κ α : Type} [DecidableEq κ] (l : List (κ × α)) (kv : κ × α) :
    List (κ × α) :=
  if l.any (fun p => decide (p.1 = kv.1)) then
    l.map (fun p => if p.1 = kv.1 then kv else p)
  else
    l ++ [kv]

/-- Folding upserts: HSET with a mapping argument, or the per-row insert
loop of write_telemetry against the latest_data table. -/
def upsertAll {κ α : Type} [DecidableEq κ] (old new : List (κ × α)) :
    List (κ × α) :=
  new.foldl upsertA old

/-- Option-valued traversal of a list, modelling a Python comprehension
in which each element's conversion may raise (the whole expression then
raises and the surrounding except-handler fires). -/
def mapMOpt {α β : Type} (f : α → Option β) : List α → Option (List β)
  | [] => some []
  | a :: t =>
      match f a, mapMOpt f t with
      | some b, some bs => some (b :: bs)
      | _, _ => none

/-! ### Timestamp resolution in the submission route (lines 127-139 of
src/routes/telemetry_postgres.py) -/

/-- Transformation the route applies before datetime.fromisoformat: a
string ending in Z has every Z replaced by +00:00 (str.replace replaces
all occurrences, not only the trailing one). -/
def zfix (s : String) : String :=
  if s.endsWith "Z" then s.replace "Z" "+00:00" else s

/-- Shallow embedding of the timestamp-resolution block of
store_telemetry.  The ISO-8601 parser (datetime.fromisoformat) is
abstracted as the parameter iso returning none where it raises
ValueError; instants are integers.  A missing timestamp field and the
empty string are both falsy in Python, so both take the default-now
branch without consulting the parser; any other string is parsed after
the Z-replacement and a parse failure becomes BadRequest. -/
def resolve_timestamp (iso : String → Option ℤ) (now : ℤ)
    (tsStr : Option String) : Except Unit ℤ :=
  match tsStr with
  | none => .ok now
  | some s =>
      if s = "" then .ok now
      else
        match iso (zfix s) with
        | some t => .ok t
        | none => .error ()

/-- ISO parser that rejects every string, used to exhibit concrete
behaviour that holds regardless of how fromisoformat is modelled. -/
def isoRejectAll : String → Option ℤ := fun _ => none

/-! ### Submission route and the telemetry system state
(store_telemetry and get_device_latest_telemetry of
src/routes/telemetry_postgres.py together with write_telemetry,
get_latest_telemetry of src/services/cassandra_telemetry.py and
cache_latest_telemetry, get_latest_telemetry of
src/services/redis_cache.py), restricted to one device. -/

/-- State of the stores touched by the telemetry read/write path for a
single device: the Cassandra latest_data table (one row per
measurement), the multiset of measurement rows ever inserted into
device_data, and the Redis hash telemetry:latest:{id} (none when the
key is absent or expired). -/
structure SysState where
  cassLatest : List (String × ℚ)
  cassWritten : List (String × ℚ)
  cache : Option (List (String × PyVal))
deriving DecidableEq, Repr

/-- Empty stores: a device that has never submitted. -/
def SysState.init : SysState := ⟨[], [], none⟩

/-- RedisCacheService.cache_latest_telemetry: HSET of the raw
measurement mapping followed by EXPIRE.  The redis-py encoder raises
DataError on an empty mapping and on any boolean value, in which case
nothing is written and the method's except-handler returns False; an
existing hash is merged field by field, not replaced. -/
def cache_latest_telemetry (cache : Option (List (String × PyVal)))
    (m : List (String × PyVal)) : Option (List (String × PyVal)) :=
  if m = [] ∨ m.any (fun kv => kv.2.isBool) then cache
  else some (upsertAll (cache.getD []) m)

/-- RedisCacheService.get_latest_telemetry: HGETALL, None when the hash
is empty or absent, otherwise every field coerced with float(v); a
coercion failure raises inside the try-block and the handler returns
None. -/
def get_latest_from_cache (cache : Option (List (String × PyVal))) :
    Option (List (String × ℚ)) :=
  match cache with
  | none => none
  | some h =>
      if h = [] then none
      else mapMOpt (fun kv => (coerceFloat kv.2).map fun q => (kv.1, q)) h

/-- One authenticated POST /telemetry for the device, from the
measurement-validation check onward (lines 124-187 of the route).
writeOutcome none models a successful Cassandra write of every numeric
row; writeOutcome (some j) models an exception after j rows of the
numeric subset were inserted, making write_telemetry_with_user return
False.  On success only, the route populates the latest-telemetry
cache (best-effort: cacheOk false models a Redis transport failure,
leaving the cache unchanged).  Returns the success flag and the new
state. -/
def submitStep (st : SysState) (m : List (String × PyVal))
    (writeOutcome : Option ℕ) (cacheOk : Bool) : Bool × SysState :=
  if m = [] then (false, st)
  else
    match writeOutcome with
    | some j =>
        let rows := (numericSubset m).take j
        (false, { st with cassLatest := upsertAll st.cassLatest rows,
                          cassWritten := st.cassWritten ++ rows })
    | none =>
        let rows := numericSubset m
        (true, { cassLatest := upsertAll st.cassLatest rows,
                 cassWritten := st.cassWritten ++ rows,
                 cache := if cacheOk then cache_latest_telemetry st.cache m
                          else st.cache })

/-- One authenticated GET /telemetry/{id}/latest
(get_device_latest_telemetry): Redis first; on a falsy answer fall back
to the Cassandra latest_data read (cassOk false models the Cassandra
client raising, which the service turns into None), and cache a
non-empty authoritative answer (best-effort).  Returns the payload
(none models the 404 branch) and the new state. -/
def getLatestStep (st : SysState) (cassOk cacheWriteOk : Bool) :
    Option (List (String × ℚ)) × SysState :=
  match get_latest_from_cache st.cache with
  | some res => (some res, st)
  | none =>
      if cassOk then
        if st.cassLatest = [] then (none, st)
        else
          (some st.cassLatest,
           { st with cache :=
               if cacheWriteOk then
                 (cache_latest_telemetry st.cache
                   (st.cassLatest.map fun kv => (kv.1, PyVal.num kv.2)))
               else st.cache })
      else (none, st)

/-- Events that can change the modelled stores of one device. -/
inductive Op where
  | submit (m : List (String × PyVal)) (writeOutcome : Option ℕ)
      (cacheOk : Bool)
  | getLatest (cassOk cacheWriteOk : Bool)
  | evict

/-- Effect of one event on the state; evict models TTL expiry of the
latest-telemetry hash or invalidate_device_cache. -/
def stepOp (st : SysState) : Op → SysState
  | .submit m w c => (submitStep st m w c).2
  | .getLatest a b => (getLatestStep st a b).2
  | .evict => { st with cache := none }

/-- Run a sequence of events from the empty stores. -/
def runOps (ops : List Op) : SysState :=
  ops.foldl stepOp SysState.init

/-- Submit once against empty stores with every backend healthy, then
immediately read the latest telemetry: the round trip of spec section 8
and the route pair of claim C2. -/
def submitThenGetLatest (m : List (String × PyVal)) :
    Option (List (String × ℚ)) :=
  (getLatestStep (submitStep SysState.init m none true).2 true true).1

/-- Coercion of a whole submitted map through the cache read path:
numeric entries survive unchanged, string entries become the float they
parse to, entries that fail to coerce are dropped. -/
def coercedEntries (m : List (String × PyVal)) : List (String × ℚ) :=
  m.filterMap fun kv => (coerceFloat kv.2).map fun q => (kv.1, q)

/-- Soundness predicate of claim C5 on the per-device stores: every
numeric field of the cached latest-telemetry hash and every latest_data
row is a measurement value actually inserted into device_data. -/
def snapshotSound (st : SysState) : Prop :=
  (∀ k q, (k, PyVal.num q) ∈ st.cache.getD [] → (k, q) ∈ st.cassWritten) ∧
  (∀ kv, kv ∈ st.cassLatest → kv ∈ st.cassWritten)

/-! ### The full submission route with failure injection
(store_telemetry, lines 91-191 of src/routes/telemetry_postgres.py) -/

/-- HTTP-level outcome of POST /telemetry. -/
inductive SubmitResp where
  | created (ts : ℤ)
  | badRequestNoData
  | badRequestTimestamp
  | unauthorized
  | internalError
deriving DecidableEq, Repr

/-- Injected behaviour of the backends during one submission:
cassWriteOk is the boolean returned by write_telemetry_with_user, the
other flags are the outcomes of the best-effort secondary calls. -/
structure SubmitEnv where
  deviceFound : Bool
  cassWriteOk : Bool
  cacheLatestOk : Bool
  setOnlineOk : Bool
  updateLastSeenOk : Bool
  mongoLogOk : Bool
deriving DecidableEq, Repr

/-- Record of the secondary calls one submission performed: none means
the call was never made, some b that it was made and reported b.  The
cache field also records the TTL passed. -/
structure SubmitTrace where
  cacheLatest : Option (ℕ × Bool)
  setOnline : Option Bool
  lastSeen : Option Bool
  mongoLogged : Option Bool
deriving DecidableEq, Repr

/-- Shallow embedding of the store_telemetry route handler, after the
request body has been decoded: authentication via the API key (device
lookup), the measurements-present check, timestamp resolution, the
authoritative Cassandra write, and—only on durable success—the three
best-effort Redis updates, with the MongoDB audit event attempted on
both outcomes inside its own try-block.  The unconditional PostgreSQL
device.update_last_seen touch on the out-of-scope identity store is not
part of the modelled failure domains. -/
def store_telemetry (env : SubmitEnv) (iso : String → Option ℤ) (now : ℤ)
    (telemetry : List (String × PyVal)) (tsStr : Option String) :
    SubmitResp × SubmitTrace :=
  let noTrace : SubmitTrace := ⟨none, none, none, none⟩
  if env.deviceFound = false then (.unauthorized, noTrace)
  else if telemetry = [] then (.badRequestNoData, noTrace)
  else
    match resolve_timestamp iso now tsStr with
    | .error _ => (.badRequestTimestamp, noTrace)
    | .ok ts =>
        let tr : SubmitTrace :=
          { cacheLatest :=
              if env.cassWriteOk then some (600, env.cacheLatestOk) else none,
            setOnline := if env.cassWriteOk then some env.setOnlineOk else none,
            lastSeen :=
              if env.cassWriteOk then some env.updateLastSeenOk else none,
            mongoLogged := some env.mongoLogOk }
        if env.cassWriteOk then (.created ts, tr) else (.internalError, tr)

/-! ### Rate limiting (check_rate_limit and get_rate_limit_remaining of
src/services/redis_cache.py) -/

/-- Counter state for one rate-limit key: value and absolute expiry
instant, none when the key is absent or has lapsed. -/
def rlGet (st : Option (ℕ × ℤ)) (t : ℤ) : Option ℕ :=
  match st with
  | some ce => if t < ce.2 then some ce.1 else none
  | none => none

/-- Branch taken when GET finds no live counter: SETEX window 1.  The
Redis server rejects a non-positive expiry, so with window 0 the SETEX
raises, the except-handler returns True and no counter exists
afterwards. -/
def rlFresh (t : ℤ) (window : ℕ) : Bool × Option (ℕ × ℤ) :=
  if window = 0 then (true, none) else (true, some (1, t + window))

/-- RedisCacheService.check_rate_limit at instant t: first live read of
the key creates the counter, a saturated counter denies without
incrementing, otherwise INCR (which preserves the key's TTL) and
allow. -/
def check_rate_limit (st : Option (ℕ × ℤ)) (t : ℤ)
    (maxRequests window : ℕ) : Bool × Option (ℕ × ℤ) :=
  match st with
  | some ce =>
      if t < ce.2 then
        if maxRequests ≤ ce.1 then (false, st)
        else (true, some (ce.1 + 1, ce.2))
      else rlFresh t window
  | none => rlFresh t window

/-- RedisCacheService.get_rate_limit_remaining at instant t:
max(0, maxRequests - count), maxRequests when no counter is live. -/
def get_rate_limit_remaining (st : Option (ℕ × ℤ)) (t : ℤ)
    (maxRequests : ℕ) : ℤ :=
  match rlGet st t with
  | none => maxRequests
  | some c => max 0 ((maxRequests : ℤ) - c)

/-- A sequence of check_rate_limit calls on one key at the given
instants, returning the per-call verdicts and the final counter. -/
def runRateCalls (maxRequests window : ℕ) :
    Option (ℕ × ℤ) → List ℤ → List Bool × Option (ℕ × ℤ)
  | st, [] => ([], st)
  | st, t :: ts =>
      let r := check_rate_limit st t maxRequests window
      let rest := runRateCalls maxRequests window r.2 ts
      (r.1 :: rest.1, rest.2)

/-! ### Relative time-range parsing
(CassandraTelemetryService._parse_time_range, lines 234-261 of
src/services/cassandra_telemetry.py) -/

/-- Python exception kinds the parser can surface. -/
inductive PyError where
  | valueError
deriving DecidableEq, Repr

/-- Unit multiplier of the relative forms: seconds per hour, day, week
or minute, keyed by the suffix character the code tests with
endswith. -/
def unitSeconds : Char → Option ℤ
  | 'h' => some 3600
  | 'd' => some 86400
  | 'w' => some 604800
  | 'm' => some 60
  | _ => none

/-- ISO fallback branch of _parse_time_range: fromisoformat on the
string with every Z replaced by +00:00, inside a bare except that
returns now minus one hour. -/
def isoFallback (iso : String → Option ℤ) (now : ℤ) (s : String) :
    Except PyError ℤ :=
  match iso (s.replace "Z" "+00:00") with
  | some v => .ok v
  | none => .ok (now - 3600)

/-- Shallow embedding of _parse_time_range with instants as integer
seconds and now as a parameter.  Empty or "now" returns now; a string
starting with "-" is stripped and, when its last character is one of
h/d/w/m, the remainder goes through int(), whose failure is an uncaught
ValueError because only the ISO branch sits inside a try; every other
string (including a stripped "-"-string without a recognized unit
suffix) falls to fromisoformat, whose bare except returns now minus one
hour.  The Python slicing s[1:], s[:-1] and the suffix tests are
expressed on the character list. -/
def parse_time_range (iso : String → Option ℤ) (now : ℤ) (s : String) :
    Except PyError ℤ :=
  if s = "" ∨ s = "now" then .ok now
  else
    match s.toList with
    | '-' :: rest =>
        match rest.getLast? with
        | some c =>
            match unitSeconds c with
            | some mult =>
                match parseIntPy (String.mk rest.dropLast) with
                | some n => .ok (now - mult * n)
                | none => .error .valueError
            | none => isoFallback iso now (String.mk rest)
        | none => isoFallback iso now (String.mk rest)
    | _ => isoFallback iso now s

/-! ### Cassandra write validation
(CassandraTelemetryService.write_telemetry, lines 163-200 of
src/services/cassandra_telemetry.py) -/

/-- Entry validation and overall outcome of write_telemetry: the falsy
guard on device_id (None or 0) and on an empty data map returns False
before the try-block, so no session call can raise there; otherwise
the body's outcome is the session's health, with every exception
caught and turned into False. -/
def write_telemetry (sessionOk : Bool) (deviceId : Option ℤ)
    (data : List (String × PyVal)) : Bool :=
  if deviceId = none ∨ deviceId = some 0 ∨ data = [] then false
  else sessionOk

/-! ### Device presence (set_device_online, is_device_online,
get_online_devices of src/services/redis_cache.py) -/

/-- ZSCORE on the devices:online sorted set, modelled as an association
list from device id to score (at most one entry per member): the score
of the first entry for the device, None when the device is not a
member. -/
def zscore : List (ℤ × ℤ) → ℤ → Option ℤ
  | [], _ => none
  | p :: t, d => if p.1 = d then some p.2 else zscore t d

/-- set_device_online: ZADD devices:online {device: time.time()}
(update_last_seen touches a separate string key, not modelled here). -/
def set_device_online (z : List (ℤ × ℤ)) (d t : ℤ) : List (ℤ × ℤ) :=
  upsertA z (d, t)

/-- is_device_online: ZSCORE, then the Python falsy test on the score
(None and 0 both fail it), then the strict five-minute window
time.time() - score < 300. -/
def is_device_online (z : List (ℤ × ℤ)) (d : ℤ) (now : ℤ) : Bool :=
  match zscore z d with
  | none => false
  | some s => if s = 0 then false else decide (now - s < 300)

/-- get_online_devices: ZRANGEBYSCORE devices:online (now - 300) now,
inclusive at both endpoints.  Membership is what the claims consume;
the real reply is ordered by score, which is not modelled. -/
def get_online_devices (z : List (ℤ × ℤ)) (now : ℤ) : List ℤ :=
  (z.filter fun p => decide (now - 300 ≤ p.2) && decide (p.2 ≤ now)).map
    Prod.fst

/-! ### Failure suppression across the CacheLayer
(src/services/redis_cache.py): every service method wraps its Redis
client calls in a try-block whose handler returns the method's
default.  The client is abstracted as a record of primitive calls each
of which either returns a value or raises. -/

/-- Outcome-level model of the redis client: each primitive either
yields an answer or raises a transport error. -/
structure RedisClient where
  getCounter : String → Except Unit (Option ℕ)
  setex : String → ℕ → ℕ → Except Unit Unit
  incr : String → Except Unit ℕ
  hset : String → List (String × PyVal) → Except Unit Unit
  expire : String → ℕ → Except Unit Bool
  hgetall : String → Except Unit (List (String × PyVal))
  zadd : String → ℤ → ℤ → Except Unit Unit
  zscorec : String → ℤ → Except Unit (Option ℤ)
  zrangebyscore : String → ℤ → ℤ → Except Unit (List ℤ)
  setStr : String → String → Except Unit Unit
  getStr : String → Except Unit (Option String)
  pingc : Except Unit Bool

/-- Client whose every primitive raises: Redis is down. -/
def RedisClient.down (c : RedisClient) : Prop :=
  (∀ k, c.getCounter k = .error ()) ∧
  (∀ k w v, c.setex k w v = .error ()) ∧
  (∀ k, c.incr k = .error ()) ∧
  (∀ k m, c.hset k m = .error ()) ∧
  (∀ k t, c.expire k t = .error ()) ∧
  (∀ k, c.hgetall k = .error ()) ∧
  (∀ k d s, c.zadd k d s = .error ()) ∧
  (∀ k d, c.zscorec k d = .error ()) ∧
  (∀ k a b, c.zrangebyscore k a b = .error ()) ∧
  (∀ k v, c.setStr k v = .error ()) ∧
  (∀ k, c.getStr k = .error ()) ∧
  c.pingc = .error ()

/-- A concrete down client. -/
def failingClient : RedisClient where
  getCounter := fun _ => .error ()
  setex := fun _ _ _ => .error ()
  incr := fun _ => .error ()
  hset := fun _ _ => .error ()
  expire := fun _ _ => .error ()
  hgetall := fun _ => .error ()
  zadd := fun _ _ _ => .error ()
  zscorec := fun _ _ => .error ()
  zrangebyscore := fun _ _ _ => .error ()
  setStr := fun _ _ => .error ()
  getStr := fun _ => .error ()
  pingc := .error ()

/-- check_rate_limit over an arbitrary client: GET, then SETEX or the
saturation test and INCR; a raise at any of the three primitive calls
is caught by the method's handler, which answers True (fail-open). -/
def svc_check_rate_limit (c : RedisClient) (key : String)
    (maxRequests window : ℕ) : Bool :=
  match c.getCounter ("ratelimit:" ++ key) with
  | .error _ => true
  | .ok none =>
      match c.setex ("ratelimit:" ++ key) window 1 with
      | .error _ => true
      | .ok _ => true
  | .ok (some cnt) =>
      if maxRequests ≤ cnt then false
      else
        match c.incr ("ratelimit:" ++ key) with
        | .error _ => true
        | .ok _ => true

/-- get_rate_limit_remaining over an arbitrary client. -/
def svc_get_rate_limit_remaining (c : RedisClient) (key : String)
    (maxRequests : ℕ) : ℤ :=
  match c.getCounter ("ratelimit:" ++ key) with
  | .error _ => maxRequests
  | .ok none => maxRequests
  | .ok (some cnt) => max 0 ((maxRequests : ℤ) - cnt)

/-- get_latest_telemetry over an arbitrary client: HGETALL, falsy test,
per-field float coercion; a raise of HGETALL or of any float() is
caught by the method's handler, which answers None. -/
def svc_get_latest_telemetry (c : RedisClient) (deviceId : ℤ) :
    Option (List (String × ℚ)) :=
  match c.hgetall ("telemetry:latest:" ++ toString deviceId) with
  | .error _ => none
  | .ok data =>
      if data = [] then none
      else
        match mapMOpt (fun kv => (coerceFloat kv.2).map fun q => (kv.1, q))
            data with
        | some res => some res
        | none => none

/-- cache_latest_telemetry over an arbitrary client: the encoder's
DataError on empty mappings or boolean values, then HSET and EXPIRE,
every raise caught by the handler answering False. -/
def svc_cache_latest_telemetry (c : RedisClient) (deviceId : ℤ)
    (m : List (String × PyVal)) (ttl : ℕ) : Bool :=
  if m = [] ∨ m.any (fun kv => kv.2.isBool) then false
  else
    match c.hset ("telemetry:latest:" ++ toString deviceId) m with
    | .error _ => false
    | .ok _ =>
        match c.expire ("telemetry:latest:" ++ toString deviceId) ttl with
        | .error _ => false
        | .ok _ => true

/-- update_last_seen over an arbitrary client: SET of an ISO string. -/
def svc_update_last_seen (c : RedisClient) (deviceId : ℤ)
    (nowIso : String) : Bool :=
  match c.setStr ("device:lastseen:" ++ toString deviceId) nowIso with
  | .ok _ => true
  | .error _ => false

/-- set_device_online over an arbitrary client: ZADD, then the nested
update_last_seen whose boolean is discarded. -/
def svc_set_device_online (c : RedisClient) (deviceId : ℤ) (t : ℤ)
    (nowIso : String) : Bool :=
  match c.zadd "devices:online" deviceId t with
  | .ok _ =>
      let _ := svc_update_last_seen c deviceId nowIso
      true
  | .error _ => false

/-- is_device_online over an arbitrary client. -/
def svc_is_device_online (c : RedisClient) (deviceId : ℤ) (now : ℤ) :
    Bool :=
  match c.zscorec "devices:online" deviceId with
  | .error _ => false
  | .ok none => false
  | .ok (some s) => if s = 0 then false else decide (now - s < 300)

/-- get_online_devices over an arbitrary client. -/
def svc_get_online_devices (c : RedisClient) (now : ℤ) : List ℤ :=
  match c.zrangebyscore "devices:online" (now - 300) now with
  | .ok l => l
  | .error _ => []

/-- get_device_by_api_key over an arbitrary client: GET of a JSON
payload, returned verbatim here (decoding of a payload this code itself
stored cannot fail). -/
def svc_get_device_by_api_key (c : RedisClient) (apiKey : String) :
    Option String :=
  match c.getStr ("apikey:" ++ apiKey) with
  | .ok v => v
  | .error _ => none

/-- is_available over an arbitrary client: the one method whose answer
reports health instead of masking it. -/
def svc_is_available (c : RedisClient) : Bool :=
  match c.pingc with
  | .ok b => b
  | .error _ => false

/-! ## Helper lemmas about the embedded data structures -/

theorem mem_upsertA {κ α : Type} [DecidableEq κ] {l : List (κ × α)}
    {kv x : κ × α} (h : x ∈ upsertA l kv) : x ∈ l ∨ x = kv := by
  unfold upsertA at h
  split at h
  · rcases List.mem_map.mp h with ⟨p, hp, he⟩
    by_cases hc : p.1 = kv.1
    · right
      simp only [hc, if_pos] at he
      exact he.symm
    · left
      simp only [hc, if_neg, not_false_iff] at he
      rwa [← he]
  · rcases List.mem_append.mp h with h | h
    · exact .inl h
    · right
      simpa using h

theorem mem_upsertAll {κ α : Type} [DecidableEq κ] {new : List (κ × α)} :
    ∀ {old : List (κ × α)} {x : κ × α},
      x ∈ upsertAll old new → x ∈ old ∨ x ∈ new := by
  induction new with
  | nil =>
      intro old x h
      exact .inl h
  | cons a t ih =>
      intro old x h
      have h' : x ∈ upsertAll (upsertA old a) t := h
      rcases ih h' with h'' | h''
      · rcases mem_upsertA h'' with h3 | h3
        · exact .inl h3
        · exact .inr (by simp [h3])
      · exact .inr (by simp [h''])

theorem upsertAll_eq_append {κ α : Type} [DecidableEq κ] :
    ∀ (new old : List (κ × α)),
      (∀ k ∈ new.map Prod.fst, k ∉ old.map Prod.fst) →
      (new.map Prod.fst).Nodup →
      upsertAll old new = old ++ new := by
  intro new
  induction new with
  | nil =>
      intro old _ _
      simp [upsertAll]
  | cons a t ih =>
      intro old hdisj hnodup
      have ha : a.1 ∉ old.map Prod.fst := hdisj a.1 (by simp)
      have h1 : upsertA old a = old ++ [a] := by
        unfold upsertA
        rw [if_neg]
        intro hc
        rcases List.any_eq_true.mp hc with ⟨p, hp, hpe⟩
        exact ha (List.mem_map.mpr ⟨p, hp, of_decide_eq_true hpe⟩)
      have h2 : upsertAll old (a :: t) = upsertAll (old ++ [a]) t := by
        simp [upsertAll, List.foldl_cons, h1]
      rw [h2, ih (old ++ [a]) ?_ (by simpa using hnodup.of_cons)]
      · simp
      · intro k hk
        simp only [List.map_append, List.mem_append] at *
        rintro (hko | hka)
        · exact hdisj k (by simp [hk]) hko
        · simp only [List.map_cons, List.map_nil, List.mem_cons,
            List.not_mem_nil, or_false] at hka
          subst hka
          have := List.nodup_cons.mp hnodup
          exact this.1 hk

theorem upsertAll_nil_eq {κ α : Type} [DecidableEq κ]
    (new : List (κ × α)) (h : (new.map Prod.fst).Nodup) :
    upsertAll [] new = new := by
  simpa using upsertAll_eq_append new [] (by simp) h

theorem numericSubset_keys_sublist (m : List (String × PyVal)) :
    ((numericSubset m).map Prod.fst).Sublist (m.map Prod.fst) := by
  induction m with
  | nil => simp [numericSubset]
  | cons a t ih =>
      rcases a with ⟨k, v⟩
      cases v with
      | num q =>
          simpa [numericSubset, List.filterMap_cons] using ih.cons₂ k
      | str s =>
          simpa [numericSubset, List.filterMap_cons] using ih.cons k
      | bool b =>
          simpa [numericSubset, List.filterMap_cons] using ih.cons k

theorem numericSubset_nodup {m : List (String × PyVal)}
    (h : (m.map Prod.fst).Nodup) :
    ((numericSubset m).map Prod.fst).Nodup :=
  List.Nodup.sublist (numericSubset_keys_sublist m) h

theorem mem_numericSubset {m : List (String × PyVal)} {k : String} {q : ℚ}
    (h : (k, PyVal.num q) ∈ m) : (k, q) ∈ numericSubset m :=
  List.mem_filterMap.mpr ⟨(k, PyVal.num q), h, rfl⟩

theorem numericSubset_ne_nil {m : List (String × PyVal)}
    (h : (m.any fun kv => kv.2.isNumeric) = true) :
    numericSubset m ≠ [] := by
  rcases List.any_eq_true.mp h with ⟨kv, hkv, hnum⟩
  rcases kv with ⟨k, v⟩
  cases v with
  | num q => exact List.ne_nil_of_mem (mem_numericSubset hkv)
  | str s => simp [PyVal.isNumeric] at hnum
  | bool b => simp [PyVal.isNumeric] at hnum

theorem mapMOpt_eq_some_filterMap {α β : Type} (f : α → Option β) :
    ∀ l : List α, (∀ x ∈ l, (f x).isSome) →
      mapMOpt f l = some (l.filterMap f) := by
  intro l
  induction l with
  | nil => intro _; simp [mapMOpt]
  | cons a t ih =>
      intro h
      rcases Option.isSome_iff_exists.mp (h a (by simp)) with ⟨b, hb⟩
      have ht := ih fun x hx => h x (by simp [hx])
      simp [mapMOpt, hb, ht, List.filterMap_cons]

theorem mapMOpt_eq_none {α β : Type} (f : α → Option β) :
    ∀ l : List α, (∃ x ∈ l, f x = none) → mapMOpt f l = none := by
  intro l
  induction l with
  | nil => rintro ⟨x, hx, _⟩; simp at hx
  | cons a t ih =>
      rintro ⟨x, hx, hfx⟩
      rcases List.mem_cons.mp hx with rfl | hx'
      · simp [mapMOpt, hfx]
      · have ht := ih ⟨x, hx', hfx⟩
        cases hfa : f a <;> simp [mapMOpt, hfa, ht]

theorem zscore_mem {z : List (ℤ × ℤ)} {d s : ℤ}
    (h : zscore z d = some s) : (d, s) ∈ z := by
  induction z with
  | nil => simp [zscore] at h
  | cons p t ih =>
      by_cases hp : p.1 = d
      · simp only [zscore, hp, if_pos] at h
        have hps : p.2 = s := Option.some_inj.mp h
        have hpe : p = (d, s) := by
          rw [← hp, ← hps]
        rw [← hpe]
        exact List.mem_cons_self p t
      · simp only [zscore, hp, if_neg, not_false_iff] at h
        exact List.mem_cons_of_mem p (ih h)

theorem zscore_unique {z : List (ℤ × ℤ)} {d s : ℤ}
    (hnd : (z.map Prod.fst).Nodup) (h : zscore z d = some s) :
    ∀ p ∈ z, p.1 = d → p = (d, s) := by
  induction z with
  | nil => intro p hp; simp at hp
  | cons a t ih =>
      intro p hp hpd
      rw [List.map_cons] at hnd
      have hnd' := List.nodup_cons.mp hnd
      by_cases ha : a.1 = d
      · simp only [zscore, ha, if_pos] at h
        rcases List.mem_cons.mp hp with rfl | hp'
        · rw [← hpd, ← Option.some_inj.mp h]
        · refine absurd ?_ hnd'.1
          have : p.1 ∈ t.map Prod.fst := List.mem_map_of_mem Prod.fst hp'
          rwa [hpd, ← ha] at this
      · simp only [zscore, ha, if_neg, not_false_iff] at h
        rcases List.mem_cons.mp hp with rfl | hp'
        · exact absurd hpd ha
        · exact ih hnd'.2 h p hp' hpd

theorem zscore_map_overwrite (d t : ℤ) :
    ∀ z : List (ℤ × ℤ), (z.any fun p => decide (p.1 = d)) = true →
      zscore (z.map fun p => if p.1 = d then (d, t) else p) d = some t := by
  intro z
  induction z with
  | nil => intro h; simp at h
  | cons a t' ih =>
      intro h
      by_cases ha : a.1 = d
      · simp [zscore, ha]
      · have h' : (t'.any fun p => decide (p.1 = d)) = true := by
          rcases List.any_eq_true.mp h with ⟨p, hp, hpe⟩
          rcases List.mem_cons.mp hp with rfl | hp'
          · exact absurd (of_decide_eq_true hpe) ha
          · exact List.any_eq_true.mpr ⟨p, hp', hpe⟩
        simp [zscore, ha, ih h']

theorem zscore_append_new (d t : ℤ) :
    ∀ z : List (ℤ × ℤ), (∀ p ∈ z, p.1 ≠ d) →
      zscore (z ++ [(d, t)]) d = some t := by
  intro z
  induction z with
  | nil => simp [zscore]
  | cons a t' ih =>
      intro h
      have ha : a.1 ≠ d := h a (by simp)
      simp only [List.cons_append, zscore, ha, if_neg, not_false_iff]
      exact ih fun p hp => h p (by simp [hp])

theorem zscore_upsertA_self (z : List (ℤ × ℤ)) (d t : ℤ) :
    zscore (upsertA z (d, t)) d = some t := by
  unfold upsertA
  by_cases h : (z.any fun p => decide (p.1 = (d, t).1)) = true
  · rw [if_pos h]
    exact zscore_map_overwrite d t z h
  · rw [if_neg h]
    refine zscore_append_new d t z fun p hp hpd => h ?_
    exact List.any_eq_true.mpr ⟨p, hp, decide_eq_true hpd⟩

theorem getLatestStep_fst_of_cache_some {st : SysState}
    {res : List (String × ℚ)}
    (h : get_latest_from_cache st.cache = some res) :
    (getLatestStep st true true).1 = some res := by
  unfold getLatestStep
  rw [h]

theorem getLatestStep_fst_of_cache_none {st : SysState}
    (h : get_latest_from_cache st.cache = none) (hne : st.cassLatest ≠ []) :
    (getLatestStep st true true).1 = some st.cassLatest := by
  unfold getLatestStep
  rw [h]
  simp [hne]

theorem snapshotSound_submit (st : SysState) (m : List (String × PyVal))
    (w : Option ℕ) (c : Bool) (h : snapshotSound st) :
    snapshotSound (submitStep st m w c).2 := by
  obtain ⟨h1, h2⟩ := h
  unfold submitStep
  split
  · exact ⟨h1, h2⟩
  · cases w with
    | some j =>
        refine ⟨?_, ?_⟩
        · intro k q hk
          exact List.mem_append_left _ (h1 k q hk)
        · intro kv hkv
          rcases mem_upsertAll hkv with hold | hnew
          · exact List.mem_append_left _ (h2 kv hold)
          · exact List.mem_append_right _ hnew
    | none =>
        refine ⟨?_, ?_⟩
        · intro k q hk
          cases c with
          | false => exact List.mem_append_left _ (h1 k q hk)
          | true =>
              unfold cache_latest_telemetry at hk
              by_cases hdata :
                  (m = [] ∨ (m.any fun kv => kv.2.isBool) = true)
              · rw [if_pos hdata] at hk
                exact List.mem_append_left _ (h1 k q hk)
              · rw [if_neg hdata] at hk
                rcases mem_upsertAll hk with hold | hnew
                · exact List.mem_append_left _ (h1 k q hold)
                · exact List.mem_append_right _ (mem_numericSubset hnew)
        · intro kv hkv
          rcases mem_upsertAll hkv with hold | hnew
          · exact List.mem_append_left _ (h2 kv hold)
          · exact List.mem_append_right _ hnew

theorem snapshotSound_getLatest (st : SysState) (a b : Bool)
    (h : snapshotSound st) : snapshotSound (getLatestStep st a b).2 := by
  obtain ⟨h1, h2⟩ := h
  unfold getLatestStep
  split
  · exact ⟨h1, h2⟩
  · split
    · split
      · exact ⟨h1, h2⟩
      · refine ⟨?_, h2⟩
        intro k q hk
        cases b with
        | false => exact h1 k q hk
        | true =>
            unfold cache_latest_telemetry at hk
            by_cases hdata :
                ((st.cassLatest.map fun kv => (kv.1, PyVal.num kv.2)) = [] ∨
                  ((st.cassLatest.map fun kv =>
                    (kv.1, PyVal.num kv.2)).any fun kv => kv.2.isBool) = true)
            · rw [if_pos hdata] at hk
              exact h1 k q hk
            · rw [if_neg hdata] at hk
              rcases mem_upsertAll hk with hold | hnew
              · exact h1 k q hold
              · rcases List.mem_map.mp hnew with ⟨kv, hkv, he⟩
                have hk1 : kv.1 = k := congrArg Prod.fst he
                have hq : kv.2 = q := PyVal.num.inj (congrArg Prod.snd he)
                have hkq : kv = (k, q) := Prod.ext hk1 hq
                exact hkq ▸ h2 kv hkv
    · exact ⟨h1, h2⟩

theorem snapshotSound_stepOp (st : SysState) (op : Op)
    (h : snapshotSound st) : snapshotSound (stepOp st op) := by
  cases op with
  | submit m w c => exact snapshotSound_submit st m w c h
  | getLatest a b => exact snapshotSound_getLatest st a b h
  | evict =>
      obtain ⟨h1, h2⟩ := h
      exact ⟨fun k q hk => absurd hk (List.not_mem_nil _), h2⟩

theorem is_device_online_iff {z : List (ℤ × ℤ)} {d now s : ℤ}
    (h : zscore z d = some s) :
    is_device_online z d now = true ↔ (s ≠ 0 ∧ now - s < 300) := by
  unfold is_device_online
  rw [h]
  by_cases hs : s = 0
  · simp [hs]
  · simp [hs]

/-! ## Claim theorems -/

/-- Claim C8: the TimeSeriesStore write operation returns false rather
than raising whenever the device id is absent or the measurement map is
empty, for every possible session health — the falsy guard sits before
the try-block, so this validation belongs to the service layer. -/
theorem write_telemetry_validates (sessionOk : Bool) (deviceId : Option ℤ)
    (data : List (String × PyVal)) (h : deviceId = none ∨ data = []) :
    write_telemetry sessionOk deviceId data = false := by
  rcases h with h | h <;> simp [write_telemetry, h]

/-- Witness for C8: a concrete absent device id and a concrete empty
measurement map both make write_telemetry return false under a healthy
session. -/
theorem write_telemetry_validates_witness :
    write_telemetry true none [("temperature", PyVal.num 1)] = false ∧
    write_telemetry true (some 7) [] = false :=
  ⟨write_telemetry_validates true none [("temperature", PyVal.num 1)]
      (Or.inl rfl),
   write_telemetry_validates true (some 7) [] (Or.inr rfl)⟩

/-- Claim C4: _parse_time_range is claimed never to raise, yet the
int() conversion of a "-"-prefixed string carrying a recognized unit
suffix sits outside any try-block, so "-h" and "-xh" raise ValueError
uncaught; the recognized relative forms and the fallback of other
malformed strings to now minus one hour behave as specified. -/
theorem parse_time_range_behaviour :
    parse_time_range isoRejectAll 0 "-h" = .error .valueError ∧
    parse_time_range isoRejectAll 0 "-xh" = .error .valueError ∧
    parse_time_range isoRejectAll 0 "-1h" = .ok (-3600) ∧
    parse_time_range isoRejectAll 0 "-30m" = .ok (-1800) ∧
    parse_time_range isoRejectAll 0 "-24h" = .ok (-86400) ∧
    parse_time_range isoRejectAll 0 "-7d" = .ok (-604800) ∧
    parse_time_range isoRejectAll 0 "now" = .ok 0 ∧
    parse_time_range isoRejectAll 0 "" = .ok 0 ∧
    parse_time_range isoRejectAll 0 "garbage" = .ok (-3600) :=
  ⟨rfl, rfl, rfl, rfl, rfl, rfl, rfl, rfl, rfl⟩

/-- Counterexample for C7: the empty string is a timestamp string the
ISO parser rejects, yet the route's Python falsy test routes it to the
default-now branch instead of BadRequest. -/
theorem resolve_timestamp_empty_string_accepted :
    resolve_timestamp isoRejectAll 0 (some "") = .ok 0 ∧
    isoRejectAll "" = none :=
  ⟨rfl, rfl⟩

/-- Claim C7 as amended: a missing timestamp and the empty string both
resolve to now; every other string is handed to the ISO-8601 parser
after replacing a trailing Z form with an explicit +00:00 offset, a
parser failure becoming BadRequest and a parse returning that
instant. -/
theorem resolve_timestamp_policy (iso : String → Option ℤ) (now : ℤ) :
    resolve_timestamp iso now none = .ok now ∧
    resolve_timestamp iso now (some "") = .ok now ∧
    (∀ s, s ≠ "" → iso (zfix s) = none →
      resolve_timestamp iso now (some s) = .error ()) ∧
    (∀ s t, s ≠ "" → iso (zfix s) = some t →
      resolve_timestamp iso now (some s) = .ok t) := by
  refine ⟨rfl, by simp [resolve_timestamp], ?_, ?_⟩
  · intro s hs hn
    simp [resolve_timestamp, hs, hn]
  · intro s t hs ht
    simp [resolve_timestamp, hs, ht]

/-- Witness for C7: a parser rejecting the concrete string "x" makes
the route answer BadRequest for it. -/
theorem resolve_timestamp_policy_witness :
    resolve_timestamp isoRejectAll 0 (some "x") = .error () :=
  (resolve_timestamp_policy isoRejectAll 0).2.2.1 "x" (by decide) rfl

/-- Counterexample for C9: a presence record with recorded timestamp 0
and now 100 satisfies the claimed condition now - score < 300, yet
is_device_online returns false because the Python falsy test swallows a
zero score. -/
theorem is_device_online_zero_score :
    zscore [((1 : ℤ), (0 : ℤ))] 1 = some 0 ∧
    ((100 : ℤ) - 0 < 300) ∧
    is_device_online [((1 : ℤ), (0 : ℤ))] 1 100 = false := by
  decide

/-- Claim C9 as amended: is_device_online is derived on read — it is
true iff a presence record exists with a nonzero recorded timestamp and
now minus that timestamp is strictly below 300; after set_device_online
at a nonzero instant the device is immediately online, and it is
offline again at any instant 300 or more seconds later with no further
activity and no setOffline call. -/
theorem is_device_online_window :
    (∀ (z : List (ℤ × ℤ)) (d now s : ℤ), zscore z d = some s →
      (is_device_online z d now = true ↔ (s ≠ 0 ∧ now - s < 300))) ∧
    (∀ (z : List (ℤ × ℤ)) (d now : ℤ), zscore z d = none →
      is_device_online z d now = false) ∧
    (∀ (z : List (ℤ × ℤ)) (d t : ℤ), t ≠ 0 →
      is_device_online (set_device_online z d t) d t = true) ∧
    (∀ (z : List (ℤ × ℤ)) (d t now : ℤ), 300 ≤ now - t →
      is_device_online (set_device_online z d t) d now = false) := by
  refine ⟨?_, ?_, ?_, ?_⟩
  · intro z d now s h
    exact is_device_online_iff h
  · intro z d now h
    simp [is_device_online, h]
  · intro z d t ht
    have h := zscore_upsertA_self z d t
    exact (is_device_online_iff h).mpr ⟨ht, by omega⟩
  · intro z d t now h
    have hz := zscore_upsertA_self z d t
    by_cases ht : t = 0
    · subst ht
      simp [is_device_online, set_device_online, hz]
    · simp only [is_device_online, set_device_online, hz, ht, if_neg,
        not_false_iff]
      simp only [decide_eq_false_iff_not]
      omega

/-- Witness for C9: device 1 marked online at instant 50 is online at
instant 50 and offline at instant 350. -/
theorem is_device_online_window_witness :
    is_device_online (set_device_online [] 1 50) 1 50 = true ∧
    is_device_online (set_device_online [] 1 50) 1 350 = false :=
  ⟨is_device_online_window.2.2.1 [] 1 50 (by decide),
   is_device_online_window.2.2.2 [] 1 50 350 (by decide)⟩

/-- Counterexample for C10: at the boundary score now - 300 the
inclusive range query of get_online_devices lists the device while the
strict per-device check of is_device_online rejects it, so the two
derivations of online status disagree on a recorded score. -/
theorem online_derivations_disagree_boundary :
    ((1 : ℤ) ∈ get_online_devices [((1 : ℤ), (700 : ℤ))] 1000) ∧
    is_device_online [((1 : ℤ), (700 : ℤ))] 1 1000 = false := by
  decide

/-- Claim C10 as amended: for a device with recorded score s,
membership in get_online_devices holds iff now - 300 ≤ s ≤ now
(inclusive range query) while is_device_online holds iff s is nonzero
and now - s < 300 (strict window with a falsy-zero test); the two
derivations therefore agree whenever s is nonzero and lies in the
half-open interval (now - 300, now], and they disagree at the boundary
score now - 300, where the range query includes the device and the
per-device check returns false. -/
theorem online_membership_characterization :
    ∀ (z : List (ℤ × ℤ)) (d now s : ℤ), (z.map Prod.fst).Nodup →
      zscore z d = some s →
      ((d ∈ get_online_devices z now) ↔ (now - 300 ≤ s ∧ s ≤ now)) ∧
      (is_device_online z d now = true ↔ (s ≠ 0 ∧ now - s < 300)) ∧
      (s ≠ 0 → now - 300 < s → s ≤ now →
        (d ∈ get_online_devices z now ∧ is_device_online z d now = true)) ∧
      (s = now - 300 →
        (d ∈ get_online_devices z now ∧ is_device_online z d now = false)) := by
  intro z d now s hnd h
  have hmem : (d ∈ get_online_devices z now) ↔ (now - 300 ≤ s ∧ s ≤ now) := by
    unfold get_online_devices
    constructor
    · intro hd
      rcases List.mem_map.mp hd with ⟨p, hp, hpd⟩
      rcases List.mem_filter.mp hp with ⟨hpz, hrange⟩
      have hps : p = (d, s) := zscore_unique hnd h p hpz hpd
      rw [hps] at hrange
      simp only [Bool.and_eq_true, decide_eq_true_eq] at hrange
      exact hrange
    · intro hs
      refine List.mem_map.mpr ⟨(d, s), List.mem_filter.mpr ⟨zscore_mem h, ?_⟩, rfl⟩
      simp only [Bool.and_eq_true, decide_eq_true_eq]
      exact hs
  refine ⟨hmem, is_device_online_iff h, ?_, ?_⟩
  · intro hs0 hlo hhi
    exact ⟨hmem.mpr ⟨by omega, hhi⟩, (is_device_online_iff h).mpr ⟨hs0, by omega⟩⟩
  · intro hb
    refine ⟨hmem.mpr ⟨by omega, by omega⟩, ?_⟩
    rcases Bool.eq_false_or_eq_true (is_device_online z d now) with ht | hf
    · rcases (is_device_online_iff h).mp ht with ⟨_, hlt⟩
      omega
    · exact hf

/-- Witness for C10: with a single record of score 20 at now 100 the
range query and the per-device check agree (both online), and with
score 700 at now 1000 the boundary disagreement is realized. -/
theorem online_membership_characterization_witness :
    ((1 : ℤ) ∈ get_online_devices [((1 : ℤ), (20 : ℤ))] 100 ∧
      is_device_online [((1 : ℤ), (20 : ℤ))] 1 100 = true) ∧
    ((1 : ℤ) ∈ get_online_devices [((1 : ℤ), (700 : ℤ))] 1000 ∧
      is_device_online [((1 : ℤ), (700 : ℤ))] 1 1000 = false) :=
  ⟨(online_membership_characterization [((1 : ℤ), (20 : ℤ))] 1 100 20
      (by decide) (by decide)).2.2.1 (by decide) (by decide) (by decide),
   (online_membership_characterization [((1 : ℤ), (700 : ℤ))] 1 1000 700
      (by decide) (by decide)).2.2.2 (by decide)⟩

/-- Counterexample for C3: with maxRequests 0 the first call in a
window is permitted and leaves a counter holding 1, exceeding
maxRequests, and with window 0 the SETEX is rejected by the server so
no counter with TTL equal to the window is ever created. -/
theorem check_rate_limit_degenerate_inputs :
    check_rate_limit none 0 0 10 = (true, some (1, 10)) ∧
    check_rate_limit none 0 5 0 = (true, none) := by
  decide

theorem runRateCalls_live (N W : ℕ) (t0 : ℤ) :
    ∀ (ts : List ℤ) (j : ℕ), (∀ t ∈ ts, t < t0 + W) →
      runRateCalls N W (some (min j N, t0 + W)) ts
        = ((List.range ts.length).map fun i => decide (j + i + 1 ≤ N),
           some (min (j + ts.length) N, t0 + W)) := by
  intro ts
  induction ts with
  | nil =>
      intro j _
      simp [runRateCalls]
  | cons t ts ih =>
      intro j hlt
      have ht : t < t0 + W := hlt t (by simp)
      have hts : ∀ u ∈ ts, u < t0 + W := fun u hu => hlt u (by simp [hu])
      by_cases hsat : N ≤ j
      · have hmin : min j N = N := min_eq_right hsat
        have hstep : check_rate_limit (some (min j N, t0 + W)) t N W
            = (false, some (min j N, t0 + W)) := by
          simp [check_rate_limit, ht, hmin]
        simp only [runRateCalls, hstep, ih j hts, List.length_cons,
          Prod.mk.injEq]
        constructor
        · rw [List.range_succ_eq_map, List.map_cons, List.map_map]
          congr 1
          · exact (decide_eq_false (by omega)).symm
          · refine List.map_congr_left fun i _ => ?_
            rw [Function.comp_apply]
            exact (decide_eq_false (by omega)).trans
              (decide_eq_false (by omega)).symm
        · have h2 : min (j + ts.length) N = min (j + (ts.length + 1)) N := by
            omega
          rw [h2]
      · have hjN : j < N := Nat.lt_of_not_le hsat
        have hmin : min j N = j := min_eq_left (Nat.le_of_lt hjN)
        have hstep : check_rate_limit (some (min j N, t0 + W)) t N W
            = (true, some (min (j + 1) N, t0 + W)) := by
          have hmin' : min (j + 1) N = j + 1 := min_eq_left hjN
          simp [check_rate_limit, ht, hmin, hmin', hsat]
        simp only [runRateCalls, hstep, ih (j + 1) hts, List.length_cons,
          Prod.mk.injEq]
        constructor
        · rw [List.range_succ_eq_map, List.map_cons, List.map_map]
          congr 1
          · exact (decide_eq_true (by omega)).symm
          · refine List.map_congr_left fun i _ => ?_
            rw [Function.comp_apply]
            exact decide_eq_decide.mpr (by omega)
        · have h2 : j + 1 + ts.length = j + (ts.length + 1) := by omega
          rw [h2]

/-- Claim C3 as amended: for every key, every maxRequests N ≥ 1 and
every window W ≥ 1, the first call in a window creates a counter with
TTL W and value 1 and returns true, calls 2..N increment and return
true, every later call within the window returns false without
incrementing, the counter never exceeds N, and once at least N calls
have been made getRemaining is exactly 0 (never negative).  With N = 0
the first call is still permitted and the counter reaches 1 > 0, and
with W = 0 no counter is ever created (see the counterexample). -/
theorem rate_limit_window_semantics (N W : ℕ) (t0 : ℤ) (ts : List ℤ)
    (hN : 1 ≤ N) (hW : 1 ≤ W) (hts : ∀ t ∈ ts, t < t0 + W) :
    (runRateCalls N W none (t0 :: ts)).1
        = (List.range (ts.length + 1)).map (fun i => decide (i + 1 ≤ N)) ∧
    (runRateCalls N W none (t0 :: ts)).2
        = some (min (ts.length + 1) N, t0 + W) ∧
    (∀ u, u < t0 + W → N ≤ ts.length + 1 →
      get_rate_limit_remaining (runRateCalls N W none (t0 :: ts)).2 u N
        = 0) := by
  have hW0 : W ≠ 0 := by omega
  have hfirst : check_rate_limit none t0 N W
      = (true, some (min 1 N, t0 + W)) := by
    simp [check_rate_limit, rlFresh, hW0, min_eq_left hN]
  have hrest := runRateCalls_live N W t0 ts 1 hts
  have hrun : runRateCalls N W none (t0 :: ts)
      = (true :: ((List.range ts.length).map fun i => decide (1 + i + 1 ≤ N)),
         some (min (1 + ts.length) N, t0 + W)) := by
    simp only [runRateCalls, hfirst, hrest]
  have hrun1 : (runRateCalls N W none (t0 :: ts)).1
      = true :: ((List.range ts.length).map fun i => decide (1 + i + 1 ≤ N)) := by
    rw [hrun]
  have hrun2 : (runRateCalls N W none (t0 :: ts)).2
      = some (min (1 + ts.length) N, t0 + W) := by
    rw [hrun]
  refine ⟨?_, ?_, ?_⟩
  · rw [hrun1, List.range_succ_eq_map, List.map_cons, List.map_map]
    congr 1
    · exact (decide_eq_true (by omega)).symm
    · refine List.map_congr_left fun i _ => ?_
      rw [Function.comp_apply]
      exact decide_eq_decide.mpr (by omega)
  · rw [hrun2]
    have h2 : 1 + ts.length = ts.length + 1 := by omega
    rw [h2]
  · intro u hu hsatd
    rw [hrun2]
    have hmin : min (1 + ts.length) N = N := by omega
    simp [get_rate_limit_remaining, rlGet, hu, hmin]

/-- Witness for C3: with maxRequests 2 and window 10, four calls at
instants 0,1,2,3 yield allow, allow, deny, deny and a remaining count
of exactly 0 at instant 5. -/
theorem rate_limit_window_semantics_witness :
    (runRateCalls 2 10 none (0 :: [1, 2, 3])).1
        = (List.range 4).map (fun i => decide (i + 1 ≤ 2)) ∧
    get_rate_limit_remaining (runRateCalls 2 10 none (0 :: [1, 2, 3])).2 5 2
        = 0 :=
  have h := rate_limit_window_semantics 2 10 0 [1, 2, 3] (by decide)
    (by decide) (by decide)
  ⟨h.1, h.2.2 5 (by decide) (by decide)⟩

/-- Claim C6: every modelled CacheLayer operation catches the
underlying transport failure and answers its default (none, false, an
empty list, or the full remaining quota) instead of propagating, with
is_available alone reporting health as false; and check_rate_limit
fails open with true on a transport error at any of its three
primitive calls, not only when the whole client is down. -/
theorem cache_layer_suppresses_errors (c : RedisClient) (h : c.down) :
    (∀ key N W, svc_check_rate_limit c key N W = true) ∧
    (∀ key N, svc_get_rate_limit_remaining c key N = N) ∧
    (∀ d, svc_get_latest_telemetry c d = none) ∧
    (∀ d m ttl, svc_cache_latest_telemetry c d m ttl = false) ∧
    (∀ d iso, svc_update_last_seen c d iso = false) ∧
    (∀ d t iso, svc_set_device_online c d t iso = false) ∧
    (∀ d now, svc_is_device_online c d now = false) ∧
    (∀ now, svc_get_online_devices c now = []) ∧
    (∀ k, svc_get_device_by_api_key c k = none) ∧
    (svc_is_available c = false) ∧
    (∀ (c' : RedisClient) key N W,
      c'.getCounter ("ratelimit:" ++ key) = .error () →
      svc_check_rate_limit c' key N W = true) ∧
    (∀ (c' : RedisClient) key N W,
      c'.getCounter ("ratelimit:" ++ key) = .ok none →
      c'.setex ("ratelimit:" ++ key) W 1 = .error () →
      svc_check_rate_limit c' key N W = true) ∧
    (∀ (c' : RedisClient) key N W cnt,
      c'.getCounter ("ratelimit:" ++ key) = .ok (some cnt) → cnt < N →
      c'.incr ("ratelimit:" ++ key) = .error () →
      svc_check_rate_limit c' key N W = true) := by
  obtain ⟨h1, h2, h3, h4, h5, h6, h7, h8, h9, h10, h11, h12⟩ := h
  refine ⟨?_, ?_, ?_, ?_, ?_, ?_, ?_, ?_, ?_, ?_, ?_, ?_, ?_⟩
  · intro key N W
    simp [svc_check_rate_limit, h1]
  · intro key N
    simp [svc_get_rate_limit_remaining, h1]
  · intro d
    simp [svc_get_latest_telemetry, h6]
  · intro d m ttl
    unfold svc_cache_latest_telemetry
    split
    · rfl
    · rw [h4]
  · intro d iso
    simp [svc_update_last_seen, h10]
  · intro d t iso
    simp [svc_set_device_online, h7]
  · intro d now
    simp [svc_is_device_online, h8]
  · intro now
    simp [svc_get_online_devices, h9]
  · intro k
    simp [svc_get_device_by_api_key, h11]
  · simp [svc_is_available, h12]
  · intro c' key N W hg
    simp [svc_check_rate_limit, hg]
  · intro c' key N W hg hs
    simp [svc_check_rate_limit, hg, hs]
  · intro c' key N W cnt hg hcnt hi
    simp [svc_check_rate_limit, hg, hi, Nat.not_le_of_lt hcnt]

/-- Claim C1: once the submission is authenticated, carries
measurements and a well-formed timestamp, the Cassandra write is the
only modelled failure that yields InternalError (HTTP 500); the three
best-effort secondary updates (latest-telemetry cache with TTL 600,
mark-online, last-seen) are performed iff the durable write succeeded,
the audit log is attempted on both outcomes, and no secondary outcome
(cache, presence, last-seen, audit) ever changes the HTTP result. -/
theorem store_telemetry_failure_semantics (env : SubmitEnv)
    (iso : String → Option ℤ) (now t : ℤ) (m : List (String × PyVal))
    (tsStr : Option String) (hdev : env.deviceFound = true) (hm : m ≠ [])
    (hts : resolve_timestamp iso now tsStr = .ok t) :
    ((store_telemetry env iso now m tsStr).1 = .internalError ↔
      env.cassWriteOk = false) ∧
    ((store_telemetry env iso now m tsStr).1 = .created t ↔
      env.cassWriteOk = true) ∧
    ((store_telemetry env iso now m tsStr).2.cacheLatest.isSome
      = env.cassWriteOk) ∧
    ((store_telemetry env iso now m tsStr).2.setOnline.isSome
      = env.cassWriteOk) ∧
    ((store_telemetry env iso now m tsStr).2.lastSeen.isSome
      = env.cassWriteOk) ∧
    (env.cassWriteOk = true →
      (store_telemetry env iso now m tsStr).2.cacheLatest
        = some (600, env.cacheLatestOk)) ∧
    ((store_telemetry env iso now m tsStr).2.mongoLogged
      = some env.mongoLogOk) ∧
    (∀ env' : SubmitEnv, env'.deviceFound = true →
      env'.cassWriteOk = env.cassWriteOk →
      (store_telemetry env' iso now m tsStr).1
        = (store_telemetry env iso now m tsStr).1) := by
  refine ⟨?_, ?_, ?_, ?_, ?_, ?_, ?_, ?_⟩
  · cases hc : env.cassWriteOk <;>
      simp [store_telemetry, hdev, hm, hts, hc]
  · cases hc : env.cassWriteOk <;>
      simp [store_telemetry, hdev, hm, hts, hc]
  · cases hc : env.cassWriteOk <;>
      simp [store_telemetry, hdev, hm, hts, hc]
  · cases hc : env.cassWriteOk <;>
      simp [store_telemetry, hdev, hm, hts, hc]
  · cases hc : env.cassWriteOk <;>
      simp [store_telemetry, hdev, hm, hts, hc]
  · intro hc
    simp [store_telemetry, hdev, hm, hts, hc]
  · cases hc : env.cassWriteOk <;>
      simp [store_telemetry, hdev, hm, hts, hc]
  · intro env' h1 h2
    cases hc : env.cassWriteOk <;>
      simp [store_telemetry, hdev, h1, hm, hts, hc, h2.trans hc]

/-- Witness for C1: with a found device, one numeric measurement and a
missing timestamp, a failing Cassandra write yields InternalError and a
succeeding one yields Created, independently of all secondary flags. -/
theorem store_telemetry_failure_semantics_witness :
    (store_telemetry ⟨true, false, true, true, true, true⟩ isoRejectAll 5
      [("temperature", PyVal.num 1)] none).1 = .internalError ∧
    (store_telemetry ⟨true, true, false, false, false, false⟩ isoRejectAll 5
      [("temperature", PyVal.num 1)] none).1 = .created 5 :=
  have h1 := store_telemetry_failure_semantics
    ⟨true, false, true, true, true, true⟩ isoRejectAll 5 5
    [("temperature", PyVal.num 1)] none rfl (by decide) rfl
  have h2 := store_telemetry_failure_semantics
    ⟨true, true, false, false, false, false⟩ isoRejectAll 5 5
    [("temperature", PyVal.num 1)] none rfl (by decide) rfl
  ⟨h1.1.mpr rfl, h2.2.1.mpr rfl⟩

/-- Counterexample for C2: submitting a fresh device the map
temperature 23.5, status "5" and immediately reading latest telemetry
returns the string-valued measurement coerced to 5.0 alongside the
numeric subset — the cache stores the raw submitted mapping, and the
read path float-coerces every stored field, so a numeric-parseable
string value is not excluded. -/
theorem submit_getLatest_includes_numeric_string :
    submitThenGetLatest
        [("temperature", PyVal.num (mkRat 47 2)), ("status", PyVal.str "5")]
      = some [("temperature", mkRat 47 2), ("status", 5)] ∧
    submitThenGetLatest
        [("temperature", PyVal.num (mkRat 47 2)), ("status", PyVal.str "5")]
      ≠ some (numericSubset
          [("temperature", PyVal.num (mkRat 47 2)),
           ("status", PyVal.str "5")]) := by
  decide

/-- Claim C2 as amended: for a fresh device and a measurement map with
at least one numeric value, submit followed immediately by getLatest
returns exactly the numeric subset whenever the map contains a boolean
value (the whole cache write fails, so the read falls through to
Cassandra) or some string value that float-parsing rejects (the cache
read raises and falls through); when no boolean is present and every
string value parses as a float, the result is instead the numeric
subset together with those string values coerced to their parsed
numbers.  Booleans are never coerced to 1.0/0.0 in either case. -/
theorem submit_getLatest_amended (m : List (String × PyVal))
    (hnd : (m.map Prod.fst).Nodup)
    (hnum : (m.any fun kv => kv.2.isNumeric) = true) :
    (((m.any fun kv => kv.2.isBool) = true ∨
        ∃ kv ∈ m, coerceFloat kv.2 = none) →
      submitThenGetLatest m = some (numericSubset m)) ∧
    ((m.any fun kv => kv.2.isBool) = false →
      (∀ kv ∈ m, (coerceFloat kv.2).isSome) →
      submitThenGetLatest m = some (coercedEntries m)) := by
  have hmne : m ≠ [] := by
    rcases List.any_eq_true.mp hnum with ⟨kv, hkv, _⟩
    exact List.ne_nil_of_mem hkv
  have hst1 : (submitStep SysState.init m none true).2
      = ⟨numericSubset m, numericSubset m, cache_latest_telemetry none m⟩ := by
    unfold submitStep
    rw [if_neg hmne]
    simp only [SysState.init]
    rw [upsertAll_nil_eq _ (numericSubset_nodup hnd)]
    rfl
  have hcache_of_nobool : (m.any fun kv => kv.2.isBool) = false →
      cache_latest_telemetry none m = some m := by
    intro hbf
    unfold cache_latest_telemetry
    rw [if_neg, Option.getD_none, upsertAll_nil_eq m hnd]
    rintro (h | h)
    · exact hmne h
    · rw [hbf] at h
      exact Bool.false_ne_true h
  constructor
  · intro hbad
    unfold submitThenGetLatest
    rw [hst1]
    by_cases hb : (m.any fun kv => kv.2.isBool) = true
    · have hcache : cache_latest_telemetry none m = none := by
        unfold cache_latest_telemetry
        rw [if_pos (Or.inr hb)]
      rw [hcache]
      exact getLatestStep_fst_of_cache_none rfl (numericSubset_ne_nil hnum)
    · have hbf : (m.any fun kv => kv.2.isBool) = false :=
        Bool.eq_false_iff.mpr hb
      rcases hbad with hb' | ⟨kv, hkv, hcf⟩
      · exact absurd hb' hb
      · rw [hcache_of_nobool hbf]
        have hread : get_latest_from_cache (some m) = none := by
          simp only [get_latest_from_cache]
          rw [if_neg hmne]
          refine mapMOpt_eq_none _ m ⟨kv, hkv, ?_⟩
          simp [hcf]
        exact getLatestStep_fst_of_cache_none hread
          (numericSubset_ne_nil hnum)
  · intro hb hall
    unfold submitThenGetLatest
    rw [hst1, hcache_of_nobool hb]
    have hread : get_latest_from_cache (some m)
        = some (coercedEntries m) := by
      simp only [get_latest_from_cache]
      rw [if_neg hmne]
      exact mapMOpt_eq_some_filterMap _ m fun kv hkv => by
        rcases Option.isSome_iff_exists.mp (hall kv hkv) with ⟨q, hq⟩
        simp [hq]
    exact getLatestStep_fst_of_cache_some hread

/-- Witness for C2: a map with an unparseable string value falls back
to the numeric subset, and an all-numeric map round-trips exactly. -/
theorem submit_getLatest_amended_witness :
    submitThenGetLatest
        [("temperature", PyVal.num 1), ("status", PyVal.str "ok")]
      = some (numericSubset
          [("temperature", PyVal.num 1), ("status", PyVal.str "ok")]) ∧
    submitThenGetLatest [("temperature", PyVal.num 1)]
      = some (coercedEntries [("temperature", PyVal.num 1)]) :=
  ⟨(submit_getLatest_amended
      [("temperature", PyVal.num 1), ("status", PyVal.str "ok")]
      (by decide) (by decide)).1
    (Or.inr ⟨("status", PyVal.str "ok"), by decide, by decide⟩),
   (submit_getLatest_amended [("temperature", PyVal.num 1)]
      (by decide) (by decide)).2 (by decide) (by decide)⟩

/-- Counterexample for C5: one successful submission of temperature 1
and status "ok" leaves the string value "ok" as a latest-telemetry
snapshot field in the cache although the only measurement ever durably
written is temperature 1 — a cached snapshot value that corresponds to
no previously-written TelemetryPoint measurement. -/
theorem snapshot_contains_unwritten_value :
    (("status", PyVal.str "ok") ∈
      (runOps [Op.submit
        [("temperature", PyVal.num 1), ("status", PyVal.str "ok")]
        none true]).cache.getD []) ∧
    (runOps [Op.submit
        [("temperature", PyVal.num 1), ("status", PyVal.str "ok")]
        none true]).cassWritten = [("temperature", 1)] ∧
    ((runOps [Op.submit
        [("temperature", PyVal.num 1), ("status", PyVal.str "ok")]
        none true]).cassWritten.all
      fun kv => decide (kv.1 ≠ "status")) = true := by
  decide

/-- Claim C5 as amended: across every sequence of submissions, latest
reads and cache evictions, every numeric-valued field of the cached
latest-telemetry snapshot and every latest_data row is a measurement
value actually written to device_data; the cache is populated only on a
successful durable write or a confirmed-positive authoritative read
(a failed submission leaves the cache untouched, and a read that
returns nothing changes no state, so a negative result is never
cached).  String-valued fields of a submission are however cached
verbatim despite never being written (see the counterexample). -/
theorem snapshot_soundness :
    (∀ ops : List Op, snapshotSound (runOps ops)) ∧
    (∀ (st : SysState) (m : List (String × PyVal)) (w : Option ℕ)
      (c : Bool), (submitStep st m w c).1 = false →
      ((submitStep st m w c).2).cache = st.cache) ∧
    (∀ (st : SysState) (a b : Bool), (getLatestStep st a b).1 = none →
      (getLatestStep st a b).2 = st) := by
  refine ⟨?_, ?_, ?_⟩
  · intro ops
    have hinit : snapshotSound SysState.init :=
      ⟨fun k q hk => absurd hk (List.not_mem_nil _),
       fun kv hkv => absurd hkv (List.not_mem_nil _)⟩
    suffices hgen : ∀ (l : List Op) (st : SysState),
        snapshotSound st → snapshotSound (l.foldl stepOp st) from
      hgen ops SysState.init hinit
    intro l
    induction l with
    | nil => intro st hst; exact hst
    | cons o t ih =>
        intro st hst
        exact ih _ (snapshotSound_stepOp st o hst)
  · intro st m w c hfail
    by_cases hm : m = []
    · simp [submitStep, hm]
    · cases w with
      | some j => simp [submitStep, hm]
      | none => simp [submitStep, hm] at hfail
  · intro st a b hnone
    unfold getLatestStep at hnone ⊢
    cases hcache : get_latest_from_cache st.cache with
    | some res => rw [hcache] at hnone
    | none =>
        rw [hcache] at hnone
        cases a with
        | false => rfl
        | true =>
            by_cases hcl : st.cassLatest = []
            · simp [hcl]
            · simp [hcl] at hnone

/-- Witness for C5: the invariant holds after a concrete successful
submission, a failed submission leaves the concrete empty cache
unchanged, and a latest read of the empty stores changes nothing. -/
theorem snapshot_soundness_witness :
    snapshotSound
      (runOps [Op.submit [("temperature", PyVal.num 1)] none true]) ∧
    ((submitStep SysState.init [("temperature", PyVal.num 1)]
        (some 0) true).2).cache = SysState.init.cache ∧
    (getLatestStep SysState.init true true).2 = SysState.init :=
  ⟨snapshot_soundness.1 [Op.submit [("temperature", PyVal.num 1)] none true],
   snapshot_soundness.2.1 SysState.init [("temperature", PyVal.num 1)]
     (some 0) true (by decide),
   snapshot_soundness.2.2 SysState.init true true (by decide)⟩

/-- Witness for C6: the concrete all-failing client is fail-open for
the rate limit, yields no latest telemetry, and reports itself
unavailable. -/
theorem cache_layer_suppresses_errors_witness :
    svc_check_rate_limit failingClient "k" 5 60 = true ∧
    svc_get_latest_telemetry failingClient 1 = none ∧
    svc_get_online_devices failingClient 1000 = [] ∧
    svc_is_available failingClient = false :=
  have hd : failingClient.down :=
    ⟨fun _ => rfl, fun _ _ _ => rfl, fun _ => rfl, fun _ _ => rfl,
     fun _ _ => rfl, fun _ => rfl, fun _ _ _ => rfl, fun _ _ => rfl,
     fun _ _ _ => rfl, fun _ _ => rfl, fun _ => rfl, rfl⟩
  have h := cache_layer_suppresses_errors failingClient hd
  ⟨h.1 "k" 5 60, h.2.2.1 1, h.2.2.2.2.2.2.2.1 1000, h.2.2.2.2.2.2.2.2.2.1⟩

end IotFlow
